import Mathlib

/-!
Verification development for the trace4rs routing-and-formatting core.

The Lean definitions below are a shallow embedding of the two source files,
src/trace4rs/src/handle/loggers.rs and src/config/src/config.rs.  Pure Rust
functions become Lean functions on Nat / String / List Char; fallible Rust
code returns Except; machine integers (u64) are Nat with explicit 2 ^ 64
bounds where overflow matters.  External collaborators (the tracing clock
sources, the rendering of structured fields) are passed in as explicit
oracle arguments.  Definitions come first, then the theorems.
-/

set_option maxHeartbeats 1000000

namespace Trace4rs

/-!
Severity levels.  The embedding mirrors the numeric discipline of the
tracing crate, which both source files rely on: a filter is represented by
the usize values OFF = 0, ERROR = 1, WARN = 2, INFO = 3, DEBUG = 4,
TRACE = 5, and an event level by ERROR = 1 .. TRACE = 5 (an event can never
carry OFF).  The comparison written in loggers.rs line 84,
meta.level() <= self.level, is exactly filterVal comparison.
-/

/-- Event severity, as in tracing::Level.  OFF is not an event level. -/
inductive Level
  | error
  | warn
  | info
  | debug
  | trace
deriving DecidableEq

/-- Logger threshold, as in tracing LevelFilter (config.rs lines 192-203). -/
inductive LevelFilter
  | off
  | error
  | warn
  | info
  | debug
  | trace
deriving DecidableEq

/-- Numeric value tracing assigns to an event level for comparisons. -/
def Level.filterVal : Level → Nat
  | .error => 1
  | .warn => 2
  | .info => 3
  | .debug => 4
  | .trace => 5

/-- Numeric value tracing assigns to a filter for comparisons. -/
def LevelFilter.filterVal : LevelFilter → Nat
  | .off => 0
  | .error => 1
  | .warn => 2
  | .info => 3
  | .debug => 4
  | .trace => 5

/-- The tracing comparison event_level <= filter used at loggers.rs line 84. -/
def levelLeFilter (l : Level) (f : LevelFilter) : Bool :=
  decide (l.filterVal ≤ f.filterVal)

/-- Rust str::starts_with on the underlying characters: the first list is a
literal prefix of the second.  Used to embed loggers.rs line 88. -/
def charsStartWith : List Char → List Char → Bool
  | [], _ => true
  | _ :: _, [] => false
  | a :: as, b :: bs => a == b && charsStartWith as bs

/-- Embedding of meta.target().starts_with(t.as_str()): tgt is a literal
prefix of metaTarget. -/
def startsWith (metaTarget tgt : String) : Bool :=
  charsStartWith tgt.data metaTarget.data

/-- Logger::is_enabled (loggers.rs lines 83-91).  The logger is represented
by its two fields read there: its LevelFilter and its optional Target (a
Target wraps a plain String, config.rs line 114). -/
def is_enabled (level : LevelFilter) (target : Option String)
    (metaLevel : Level) (metaTarget : String) : Bool :=
  let match_level := levelLeFilter metaLevel level
  let match_target :=
    match target with
    | none => true
    | some t => startsWith metaTarget t
  match_level && match_target

/-!
Specification-side predicates for claim C1, written from the words of the
spec: the level test uses the 0-based ERROR < WARN < INFO < DEBUG < TRACE
rank scale with OFF accepting nothing, and the target test is the literal
prefix test with a target-less logger always matching.
-/

/-- Rank of an event level on the 0-based ERROR..TRACE scale of the spec. -/
def Level.specRank : Level → Nat
  | .error => 0
  | .warn => 1
  | .info => 2
  | .debug => 3
  | .trace => 4

/-- Rank of a filter on the same scale; none for OFF, which accepts nothing. -/
def LevelFilter.specRank : LevelFilter → Option Nat
  | .off => none
  | .error => some 0
  | .warn => some 1
  | .info => some 2
  | .debug => some 3
  | .trace => some 4

/-- The level test as the spec words it: event rank at most logger rank,
with an OFF filter accepting nothing. -/
def levelTestSpec (metaLevel : Level) (f : LevelFilter) : Bool :=
  match f.specRank with
  | none => false
  | some r => decide (metaLevel.specRank ≤ r)

/-- The target test as the spec words it: no target always matches, a target
matches iff the event target starts with it as a literal prefix. -/
def targetTestSpec (target : Option String) (metaTarget : String) : Bool :=
  match target with
  | none => true
  | some t => startsWith metaTarget t

/-!
Size policy parser, embedding Policy::calculate_maximum_file_size
(config.rs lines 303-353).  Strings are handled through their character
lists.  Rust str::find returns the byte index of the first matching
character; here the characters before the first non-digit are all ASCII
digits (one byte each), so that byte index equals the character index and
the split below is exact.
-/

/-- Rust str::find(pred) on a character list: index of the first character
satisfying the predicate, scanning from index i. -/
def findIdxAux (p : Char → Bool) : List Char → Nat → Option Nat
  | [], _ => none
  | c :: rest, i => if p c then some i else findIdxAux p rest (i + 1)

/-- Rust str::find(pred): index of the first matching character. -/
def strFind (p : Char → Bool) (l : List Char) : Option Nat :=
  findIdxAux p l 0

/-- Rust str::trim: drop leading and trailing whitespace characters. -/
def trimList (l : List Char) : List Char :=
  (((l.dropWhile Char.isWhitespace).reverse.dropWhile Char.isWhitespace)).reverse

/-- Numeric value of a list of ASCII decimal digit characters. -/
def digitsVal (l : List Char) : Nat :=
  l.foldl (fun acc c => acc * 10 + (c.toNat - 48)) 0

/-- Helper for u64::from_str, which accepts one optional leading plus sign
before the digits. -/
def stripLeadingPlus : List Char → List Char
  | [] => []
  | c :: rest => if c = '+' then rest else c :: rest

/-- Rust u64::from_str: an optional leading plus sign, then at least one
ASCII decimal digit, rejecting values that do not fit in 64 bits. -/
def parseU64 (l : List Char) : Option Nat :=
  if stripLeadingPlus l = [] then none
  else if (stripLeadingPlus l).all Char.isDigit then
    if digitsVal (stripLeadingPlus l) < 2 ^ 64 then
      some (digitsVal (stripLeadingPlus l))
    else none
  else none

/-- Rust char to_ascii_lowercase. -/
def asciiLowercase (c : Char) : Char :=
  if 'A' ≤ c && c ≤ 'Z' then Char.ofNat (c.toNat + 32) else c

/-- Rust str::eq_ignore_ascii_case on character lists. -/
def eqIgnoreAsciiCase (a b : List Char) : Bool :=
  a.map asciiLowercase == b.map asciiLowercase

/-- Rust u64::checked_mul: none when the product does not fit in 64 bits. -/
def checked_mul (a b : Nat) : Option Nat :=
  if a * b < 2 ^ 64 then some (a * b) else none

/-- The error type of the config crate as used by
calculate_maximum_file_size: an unexpected unit string, a checked-multiply
overflow carrying the parsed number and the unit string, or a wrapped
integer-parse error (the From conversion at config.rs line 327). -/
inductive Error
  | unexpectedUnit : String → Error
  | overflow : Nat → String → Error
  | parseIntError : Error
deriving DecidableEq

/-- The constant KB of calculate_maximum_file_size (config.rs line 304). -/
def KB : Nat := 1024

/-- The constant MB of calculate_maximum_file_size (config.rs line 305). -/
def MB : Nat := KB * 1024

/-- The constant GB of calculate_maximum_file_size (config.rs line 306). -/
def GB : Nat := MB * 1024

/-- The constant TB of calculate_maximum_file_size (config.rs line 307). -/
def TB : Nat := GB * 1024

/-- The unit if-chain and checked multiplication of
calculate_maximum_file_size (config.rs lines 335-352), reached when the
unit substring is present.  The Option (Option Nat) mirrors the source
control flow: the outer none is the early return Err(UnexpectedUnit) from
the if-chain, the inner Option is the checked multiplication. -/
def unit_and_multiply (number : Nat) (unit : List Char) : Except Error Nat :=
  let bytes_number : Option (Option Nat) :=
    if eqIgnoreAsciiCase unit "b".data then
      some (some number)
    else if eqIgnoreAsciiCase unit "kb".data || eqIgnoreAsciiCase unit "kib".data then
      some (checked_mul number KB)
    else if eqIgnoreAsciiCase unit "mb".data || eqIgnoreAsciiCase unit "mib".data then
      some (checked_mul number MB)
    else if eqIgnoreAsciiCase unit "gb".data || eqIgnoreAsciiCase unit "gib".data then
      some (checked_mul number GB)
    else if eqIgnoreAsciiCase unit "tb".data || eqIgnoreAsciiCase unit "tib".data then
      some (checked_mul number TB)
    else
      none
  match bytes_number with
  | none => .error (.unexpectedUnit (String.mk unit))
  | some (some n) => .ok n
  | some none => .error (.overflow number (String.mk unit))

/-- Policy::calculate_maximum_file_size (config.rs lines 303-353).  The
source first computes the pair (number, unit) by splitting at the first
non-digit character and trimming each part, then parses the number, then
either returns it directly (no unit present) or runs the unit if-chain;
here the pair is inlined into the two branches of the split. -/
def calculate_maximum_file_size (size : String) : Except Error Nat :=
  match strFind (fun c => !c.isDigit) size.data with
  | some n =>
    match parseU64 (trimList (size.data.take n)) with
    | none => .error .parseIntError
    | some number => unit_and_multiply number (trimList (size.data.drop n))
  | none =>
    match parseU64 (trimList size.data) with
    | none => .error .parseIntError
    | some number => .ok number

/-!
Appender multiplexing: Logger::mk_writer and the writer of Logger::new
(loggers.rs lines 93-130).  A BoxMakeWriter is modelled by the list of
resolved sink handles it fans out to, in accumulation order:
MakeWriterExt::and of two writers is list concatenation, a single appender
is a singleton, and io::sink is the empty list.  The sink handle type is an
arbitrary type, and the Appenders registry (an external collaborator) is a
lookup function from appender id to an optional handle.
-/

/-- The loop body of Logger::mk_writer (loggers.rs lines 98-106). -/
def mk_writer_step {α : Type} (appenders : String → Option α)
    (accumulated_makewriter : Option (List α)) (i : String) : Option (List α) :=
  match appenders i with
  | some appender =>
    match accumulated_makewriter with
    | some acc => some (acc ++ [appender])
    | none => some [appender]
  | none => accumulated_makewriter

/-- Logger::mk_writer (loggers.rs lines 93-108). -/
def mk_writer {α : Type} (ids : List String) (appenders : String → Option α) :
    Option (List α) :=
  ids.foldl (mk_writer_step appenders) none

/-- The writer built in Logger::new (loggers.rs lines 118-119): mk_writer
with the io::sink fallback when nothing resolved. -/
def logger_writer {α : Type} (ids : List String) (appenders : String → Option α) :
    List α :=
  (mk_writer ids appenders).getD []

/-- One write call on the composite destination: every accumulated sink
receives the identical byte sequence. -/
def writeComposite {α : Type} (dest : List α) (bytes : String) : List (α × String) :=
  dest.map (fun s => (s, bytes))

/-!
The MessageOnly formatter (loggers.rs lines 167-171 and 261-288).  The
recorded fields of an event are modelled as the ordered list of pairs of
the field name and the textual (Debug) rendering of the recorded value,
which is what record_debug receives.  For the conventional message field of
a tracing event the Debug rendering of its format-arguments value is the
message text itself.
-/

/-- The hardcoded message field name (loggers.rs line 261). -/
def MESSAGE_FIELD_NAME : String := "message"

/-- SingleFieldVisitor::record_debug (loggers.rs lines 281-287) acting on
one recorded field: when the field name matches, writeln the value. -/
def singleFieldVisitorStep (field_name : String) (acc : String) (f : String × String) :
    String :=
  if f.1 == field_name then acc ++ f.2 ++ "\n" else acc

/-- Driving SingleFieldVisitor over all recorded fields of the event, in
order, as event.record does. -/
def singleFieldVisitorOut (field_name : String) (fs : List (String × String)) : String :=
  fs.foldl (singleFieldVisitorStep field_name) ""

/-- The MessageOnly arm of EventFormatter::format_event (loggers.rs lines
167-171): visit with MESSAGE_FIELD_NAME, then return Ok.  The rendered
text is returned alongside the fmt::Result. -/
def format_event_messageOnly (fs : List (String × String)) : Except Unit String :=
  .ok (singleFieldVisitorOut MESSAGE_FIELD_NAME fs)

/-!
The custom template formatter (loggers.rs lines 176-258).
-/

namespace fields

/-- Token id of the timestamp placeholder (loggers.rs line 177). -/
def TIMESTAMP : String := "T"

/-- Token id of the target placeholder (loggers.rs line 178). -/
def TARGET : String := "t"

/-- Token id of the message placeholder (loggers.rs line 179). -/
def MESSAGE : String := "m"

/-- Token id of the fields placeholder (loggers.rs line 180). -/
def FIELDS : String := "f"

/-- Token id of the level placeholder (loggers.rs line 181). -/
def LEVEL : String := "l"

end fields

/-- Display name of a tracing severity level, as written by the level
token. -/
def Level.displayName : Level → String
  | .error => "ERROR"
  | .warn => "WARN"
  | .info => "INFO"
  | .debug => "DEBUG"
  | .trace => "TRACE"

/-- The data CustomValueWriter::write_value (loggers.rs lines 199-223)
reads: the normalized metadata target and level of the event, the names of
the field definitions of the event (event.fields() yields tracing Field
values, and the Display form of a Field is its name), the text produced by
ctx.format_fields for the fields token (an external collaborator, passed in
as an oracle), and the output of the tracing-subscriber SystemTime clock
source for the timestamp token (an oracle, err when the underlying
conversion fails).  The recorded field values are not part of this data
because write_value never reads them. -/
structure CustomCtx where
  metaTarget : String
  metaLevel : Level
  fieldNames : List String
  formattedFields : String
  systemTimeFmt : Except Unit String

/-- CustomFormatter::format_timestamp (loggers.rs lines 251-258): format
with the tracing-subscriber SystemTime source; when that fails, write the
literal unknown-time marker instead. -/
def format_timestamp (systemTimeFmt : Except Unit String) : String :=
  match systemTimeFmt with
  | .ok s => s
  | .error _ => "<unknown time>"

/-- CustomValueWriter::write_value (loggers.rs lines 199-223).  fmtorp
interns distinct placeholder names to distinct numeric field ids, so the id
comparisons against get_field_id of the five token names are modelled as
comparisons on the placeholder name itself.  The message arm concatenates,
over every field definition of the event named "message", the Display form
of the Field — which is the field name, not the recorded value.  Writes
cannot fail in this pure model, so every arm ends in Ok carrying the text
written. -/
def write_value (c : CustomCtx) (field : String) : Except Unit String :=
  if field == fields.TIMESTAMP then
    .ok (format_timestamp c.systemTimeFmt)
  else if field == fields.TARGET then
    .ok c.metaTarget
  else if field == fields.MESSAGE then
    .ok (c.fieldNames.foldl
      (fun acc n => if n == MESSAGE_FIELD_NAME then acc ++ n else acc) "")
  else if field == fields.FIELDS then
    .ok c.formattedFields
  else if field == fields.LEVEL then
    .ok c.metaLevel.displayName
  else
    .ok ""

/-!
Timestamp strategies for claim C8.
-/

/-- The clock facts the two timestamp strategies consume, over an abstract
instant type: the result of OffsetDateTime now_local when it succeeds, the
result of OffsetDateTime now_utc, the Rfc3339 formatting function of the
time crate (none when the conversion fails), and the output of the
tracing-subscriber SystemTime source used by the custom formatter (err when
that conversion fails). -/
structure ClockEnv (α : Type) where
  now_local : Option α
  now_utc : α
  rfc3339 : α → Option String
  systemTimeFmt : Except Unit String

/-- UtcOffsetTime::format_time (loggers.rs lines 296-302): prefer local
time, fall back to UTC, format as Rfc3339, and degrade to the empty string
(unwrap_or_default) when the conversion fails.  The write_str always
succeeds in the pure model, so the text written is returned directly. -/
def UtcOffsetTime.format_time {α : Type} (env : ClockEnv α) : String :=
  let ts := env.now_local.getD env.now_utc
  let ts_str := (env.rfc3339 ts).getD ""
  ts_str

/-- The timestamp text of the Normal format: NORMAL_FMT is built with
with_timer(UtcOffsetTime) (loggers.rs lines 56-57), and tracing-subscriber
writes the timer output, substituting an unknown-time marker only if the
timer itself returns Err — which the embedding of UtcOffsetTime format_time
never does, since it swallows conversion failures into an empty string. -/
def normalTimestampText {α : Type} (env : ClockEnv α) : String :=
  UtcOffsetTime.format_time env

/-- The timestamp text of the custom timestamp token: format_timestamp on
the SystemTime source (loggers.rs lines 251-258). -/
def customTimestampText {α : Type} (env : ClockEnv α) : String :=
  format_timestamp env.systemTimeFmt

/-!
Formatter construction for claim C9.
-/

/-- A parsed template item of the fmtorp formatting string: a literal chunk
or a named placeholder. -/
inductive TemplateItem
  | lit : String → TemplateItem
  | placeholder : String → TemplateItem
deriving DecidableEq

/-- The five supported placeholder names (loggers.rs lines 176-182). -/
def knownTokens : List String :=
  [ fields.TIMESTAMP, fields.TARGET, fields.MESSAGE, fields.FIELDS, fields.LEVEL ]

/-- An fmtorp compiled formatter holding the parsed template. -/
structure Fmtr where
  items : List TemplateItem
deriving DecidableEq

/-- The construction-time template syntax error. -/
inductive TemplateError
  | unknownPlaceholder
deriving DecidableEq

/-- Modelled from the spec: the fmtorp crate, whose Fmtr constructor is
invoked by CustomFormatter::new (loggers.rs lines 231-235), is not under
src; per the spec the template is parsed once when the Format is
instantiated into a Formatter, and a template containing an unknown or
unsupported placeholder fails with a template syntax error at that point,
never per event. -/
def Fmtr.new (items : List TemplateItem) : Except TemplateError Fmtr :=
  if items.all (fun it =>
      match it with
      | .placeholder n => knownTokens.contains n
      | .lit _ => true) then
    .ok ⟨items⟩
  else
    .error .unknownPlaceholder

/-- The Format variants of the config crate (config.rs lines 164-169), the
Custom template already scanned into items. -/
inductive ConfigFormat
  | normal
  | messageOnly
  | custom : List TemplateItem → ConfigFormat

/-- The EventFormatter variants (loggers.rs lines 142-146). -/
inductive EventFormatter
  | normal
  | messageOnly
  | custom : Fmtr → EventFormatter

/-- From ConfigFormat for EventFormatter (loggers.rs lines 148-156), with
the fallible template construction surfaced as Except. -/
def eventFormatterFrom : ConfigFormat → Except TemplateError EventFormatter
  | .normal => .ok .normal
  | .messageOnly => .ok .messageOnly
  | .custom s => (Fmtr.new s).map EventFormatter.custom

/-!
The dispatch engine for claim C2.
-/

/-- A log event as offered to the dispatch engine: severity, target, and
the recorded fields (name and textual value). -/
structure LogEvent where
  level : Level
  target : String
  fieldsRec : List (String × String)

/-- One per-logger dispatch stage: the filter fields of Logger (its
LevelFilter and optional target, loggers.rs lines 59-63), its rendering
function (the formatter of the stage, kept abstract so the theorem
quantifies over every format), and its configured appender ids. -/
structure Stage where
  level : LevelFilter
  target : Option String
  render : Level → String → List (String × String) → String
  ids : List String

/-- Processing of one event by one stage — the Layer impl of Logger
(loggers.rs lines 132-140): enabled runs Logger::is_enabled, and when the
event is accepted, on_event renders it with the stage formatter and writes
the text to the composite destination built from the stage appender ids; a
rejected event produces nothing. -/
def processStage {α : Type} (appenders : String → Option α) (st : Stage)
    (e : LogEvent) : Option (List (α × String)) :=
  if is_enabled st.level st.target e.level e.target then
    some (writeComposite (logger_writer st.ids appenders)
      (st.render e.level e.target e.fieldsRec))
  else
    none

/-- Modelled from the spec: the fan-out composition of all configured
stages plus the default stage (the engine assembly that registers every
Logger as a layer is outside src; the per-stage enabled and on_event
behavior above is from src): every incoming event is offered to every
stage independently. -/
def dispatch {α : Type} (appenders : String → Option α) (stages : List Stage)
    (e : LogEvent) : List (Option (List (α × String))) :=
  stages.map (fun st => processStage appenders st e)

/-!
Theorems.  First the helper lemmas about the character-list primitives,
then one theorem per claim with its witness or counterexample.
-/

theorem findIdxAux_none {p : Char → Bool} :
    ∀ (l : List Char) (i : Nat), (∀ c ∈ l, p c = false) → findIdxAux p l i = none := by
  intro l
  induction l with
  | nil => intro i _; rfl
  | cons c cs ih =>
      intro i h
      have hc := h c (by simp)
      unfold findIdxAux
      rw [hc]
      simp only [Bool.false_eq_true, if_false]
      exact ih (i + 1) (fun x hx => h x (by simp [hx]))

theorem findIdxAux_append {p : Char → Bool} :
    ∀ (l₁ : List Char) (c : Char) (l₂ : List Char) (i : Nat),
      (∀ x ∈ l₁, p x = false) → p c = true →
      findIdxAux p (l₁ ++ c :: l₂) i = some (i + l₁.length) := by
  intro l₁
  induction l₁ with
  | nil =>
      intro c l₂ i _ hc
      simp [findIdxAux, hc]
  | cons a as ih =>
      intro c l₂ i h hc
      have ha := h a (by simp)
      rw [List.cons_append]
      unfold findIdxAux
      rw [ha]
      simp only [Bool.false_eq_true, if_false]
      rw [ih c l₂ (i + 1) (fun x hx => h x (by simp [hx])) hc]
      congr 1
      simp [List.length_cons]
      omega

theorem strFind_none {p : Char → Bool} (l : List Char)
    (h : ∀ c ∈ l, p c = false) : strFind p l = none :=
  findIdxAux_none l 0 h

theorem strFind_append {p : Char → Bool} (l₁ : List Char) (c : Char) (l₂ : List Char)
    (h : ∀ x ∈ l₁, p x = false) (hc : p c = true) :
    strFind p (l₁ ++ c :: l₂) = some l₁.length := by
  unfold strFind
  rw [findIdxAux_append l₁ c l₂ 0 h hc]
  simp

theorem take_len_append {α : Type} : ∀ (l₁ l₂ : List α), (l₁ ++ l₂).take l₁.length = l₁ := by
  intro l₁ l₂
  induction l₁ with
  | nil => rfl
  | cons a as ih => simp [List.take, ih]

theorem drop_len_append {α : Type} : ∀ (l₁ l₂ : List α), (l₁ ++ l₂).drop l₁.length = l₂ := by
  intro l₁ l₂
  induction l₁ with
  | nil => rfl
  | cons a as ih => simp [List.drop, ih]

theorem dropWhile_all_false {p : Char → Bool} (l : List Char)
    (h : ∀ c ∈ l, p c = false) : l.dropWhile p = l := by
  cases l with
  | nil => rfl
  | cons a as => simp [List.dropWhile_cons, h a (by simp)]

theorem dropWhile_all_true {p : Char → Bool} :
    ∀ (l : List Char), (∀ c ∈ l, p c = true) → l.dropWhile p = [] := by
  intro l
  induction l with
  | nil => intro _; rfl
  | cons a as ih =>
      intro h
      simp only [List.dropWhile_cons, h a (by simp), if_true]
      exact ih (fun x hx => h x (by simp [hx]))

theorem trimList_no_ws (l : List Char)
    (h : ∀ c ∈ l, c.isWhitespace = false) : trimList l = l := by
  unfold trimList
  rw [dropWhile_all_false l h,
    dropWhile_all_false l.reverse (fun c hc => h c (List.mem_reverse.mp hc)),
    List.reverse_reverse]

theorem trimList_all_ws (l : List Char)
    (h : ∀ c ∈ l, c.isWhitespace = true) : trimList l = [] := by
  unfold trimList
  rw [dropWhile_all_true l h]
  rfl

theorem ws_not_digit (c : Char) (h : c.isWhitespace = true) : c.isDigit = false := by
  unfold Char.isWhitespace at h
  simp only [Bool.or_eq_true, decide_eq_true_eq] at h
  rcases h with ((h | h) | h) | h <;> subst h <;> rfl

theorem digit_not_ws (c : Char) (h : c.isDigit = true) : c.isWhitespace = false := by
  cases hw : c.isWhitespace with
  | false => rfl
  | true => rw [ws_not_digit c hw] at h; exact absurd h (by simp)

theorem stripLeadingPlus_digits (l : List Char)
    (h : ∀ c ∈ l, c.isDigit = true) : stripLeadingPlus l = l := by
  cases l with
  | nil => rfl
  | cons a as =>
      have ha := h a (by simp)
      have : ¬(a = '+') := by
        intro he
        subst he
        exact absurd ha (by decide)
      simp [stripLeadingPlus, this]

theorem parseU64_digits (l : List Char) (hne : l ≠ [])
    (hd : ∀ c ∈ l, c.isDigit = true) (hlt : digitsVal l < 2 ^ 64) :
    parseU64 l = some (digitsVal l) := by
  unfold parseU64
  rw [stripLeadingPlus_digits l hd]
  have hall : l.all Char.isDigit = true := List.all_eq_true.mpr hd
  simp [hne, hall]
  omega

theorem data_mk (l : List Char) : (String.mk l).data = l := rfl

/-- Evaluation of the parser on an input that is a nonempty run of digits
followed by a part starting with a non-digit: it reaches the unit if-chain
with the parsed number and the trimmed remainder. -/
theorem calc_digits_then (digits : List Char) (c : Char) (rest : List Char)
    (hne : digits ≠ []) (hd : ∀ x ∈ digits, x.isDigit = true)
    (hc : c.isDigit = false) (hlt : digitsVal digits < 2 ^ 64) :
    calculate_maximum_file_size (String.mk (digits ++ c :: rest))
      = unit_and_multiply (digitsVal digits) (trimList (c :: rest)) := by
  have hfind : strFind (fun ch => !ch.isDigit) (digits ++ c :: rest) = some digits.length :=
    strFind_append digits c rest (fun x hx => by rw [hd x hx]; rfl) (by rw [hc]; rfl)
  simp only [calculate_maximum_file_size, data_mk, hfind, take_len_append, drop_len_append]
  rw [trimList_no_ws digits (fun x hx => digit_not_ws x (hd x hx))]
  rw [parseU64_digits digits hne hd hlt]

/-- Evaluation of the parser on an input that is a nonempty run of digits
and nothing else: the literal byte count. -/
theorem calc_all_digits (digits : List Char)
    (hne : digits ≠ []) (hd : ∀ x ∈ digits, x.isDigit = true)
    (hlt : digitsVal digits < 2 ^ 64) :
    calculate_maximum_file_size (String.mk digits) = .ok (digitsVal digits) := by
  have hfind : strFind (fun ch => !ch.isDigit) digits = none :=
    strFind_none _ (fun x hx => by rw [hd x hx]; rfl)
  simp only [calculate_maximum_file_size, data_mk, hfind]
  rw [trimList_no_ws digits (fun x hx => digit_not_ws x (hd x hx))]
  rw [parseU64_digits digits hne hd hlt]

/-- C1: For every logger and every event, is_enabled returns true iff both
the level test (event rank at most logger rank on the ERROR < WARN < INFO <
DEBUG < TRACE scale, OFF accepting nothing) and the target test (no target
always matches; target T matches iff the event target starts with T as a
literal prefix, so target "foo" also matches event target "foobar") hold. -/
theorem is_enabled_iff_level_and_target_tests :
    (∀ (level : LevelFilter) (target : Option String)
        (metaLevel : Level) (metaTarget : String),
      is_enabled level target metaLevel metaTarget
        = (levelTestSpec metaLevel level && targetTestSpec target metaTarget))
    ∧ is_enabled .trace (some "foo") .error "foobar" = true := by
  constructor
  · intro level target metaLevel metaTarget
    have hlev : ∀ (l : Level) (f : LevelFilter),
        levelLeFilter l f = levelTestSpec l f := by
      intro l f
      cases l <;> cases f <;> rfl
    cases target with
    | none =>
        simp [is_enabled, targetTestSpec, hlev]
    | some t =>
        simp [is_enabled, targetTestSpec, hlev]
  · decide

/-- C3: calculate_maximum_file_size satisfies the parsing table of the
spec — "10" to 10, "10b" to 10, "10kb" and "10kib" to 10240, "1mb" to
1048576, "1gb" to 1073741824, "1tb" to 1099511627776, "5xy" to an
UnexpectedUnit("xy") error — and for every u64-parseable number n whose
product with 1024 to the fourth power overflows 64 bits, the input n
followed by "tb" returns an Overflow error preserving the parsed number
and the unit string, with no silent wraparound. -/
theorem calculate_maximum_file_size_table :
    calculate_maximum_file_size "10" = .ok 10
    ∧ calculate_maximum_file_size "10b" = .ok 10
    ∧ calculate_maximum_file_size "10kb" = .ok 10240
    ∧ calculate_maximum_file_size "10kib" = .ok 10240
    ∧ calculate_maximum_file_size "1mb" = .ok 1048576
    ∧ calculate_maximum_file_size "1gb" = .ok 1073741824
    ∧ calculate_maximum_file_size "1tb" = .ok 1099511627776
    ∧ calculate_maximum_file_size "5xy" = .error (.unexpectedUnit "xy")
    ∧ ∀ (digits : List Char) (n : Nat),
        digits ≠ [] → (∀ c ∈ digits, c.isDigit = true) → digitsVal digits = n →
        2 ^ 24 ≤ n → n < 2 ^ 64 →
        calculate_maximum_file_size (String.mk (digits ++ [ 't', 'b' ]))
          = .error (.overflow n "tb") := by
  refine ⟨rfl, rfl, rfl, rfl, rfl, rfl, rfl, rfl, ?_⟩
  intro digits n hne hd hval h24 h64
  subst hval
  rw [show (digits ++ [ 't', 'b' ]) = digits ++ 't' :: [ 'b' ] from rfl]
  rw [calc_digits_then digits 't' [ 'b' ] hne hd (by decide) h64]
  rw [show trimList ('t' :: [ 'b' ]) = [ 't', 'b' ] from rfl]
  have hTB : TB = 2 ^ 40 := by decide
  have hmul : 2 ^ 64 ≤ digitsVal digits * TB := by
    rw [hTB]
    calc (2 : Nat) ^ 64 = 2 ^ 24 * 2 ^ 40 := by norm_num
      _ ≤ digitsVal digits * 2 ^ 40 := Nat.mul_le_mul_right _ h24
  have hcm : checked_mul (digitsVal digits) TB = none := by
    have hnlt : ¬ digitsVal digits * TB < 2 ^ 64 := by omega
    unfold checked_mul
    rw [if_neg hnlt]
  simp [unit_and_multiply,
    show eqIgnoreAsciiCase [ 't', 'b' ] "b".data = false from rfl,
    show eqIgnoreAsciiCase [ 't', 'b' ] "kb".data = false from rfl,
    show eqIgnoreAsciiCase [ 't', 'b' ] "kib".data = false from rfl,
    show eqIgnoreAsciiCase [ 't', 'b' ] "mb".data = false from rfl,
    show eqIgnoreAsciiCase [ 't', 'b' ] "mib".data = false from rfl,
    show eqIgnoreAsciiCase [ 't', 'b' ] "gb".data = false from rfl,
    show eqIgnoreAsciiCase [ 't', 'b' ] "gib".data = false from rfl,
    show eqIgnoreAsciiCase [ 't', 'b' ] "tb".data = true from rfl,
    hcm]

/-- Witness for C3: the concrete input "16777216tb", whose number is
exactly 2 to the 24th and therefore overflows when multiplied by TB. -/
theorem calculate_maximum_file_size_table_witness :
    ([ '1', '6', '7', '7', '7', '2', '1', '6' ] : List Char) ≠ []
    ∧ calculate_maximum_file_size
        (String.mk ([ '1', '6', '7', '7', '7', '2', '1', '6' ] ++ [ 't', 'b' ]))
      = .error (.overflow 16777216 "tb") :=
  ⟨by decide,
   calculate_maximum_file_size_table.2.2.2.2.2.2.2.2
     [ '1', '6', '7', '7', '7', '2', '1', '6' ] 16777216
     (by decide) (by decide) (by decide) (by decide) (by decide)⟩

/-- C4 counterexample: on the input "10 " (digits followed by a single
space) the parser does not return Ok(10); the trimmed-empty unit falls
through the whole unit if-chain and yields UnexpectedUnit(""). -/
theorem whitespace_unit_not_bytes :
    calculate_maximum_file_size "10 " = .error (.unexpectedUnit "")
    ∧ calculate_maximum_file_size "10 " ≠ .ok 10 := by
  have e1 : calculate_maximum_file_size "10 " = .error (.unexpectedUnit "") := rfl
  refine ⟨e1, fun h => ?_⟩
  rw [e1] at h
  exact Except.noConfusion h

/-- C4 amended: the parser splits its input into a leading maximal run of
ASCII digits and a trailing unit substring and trims whitespace around each
part, but only an absent unit (an input consisting solely of decimal
digits) is treated as a literal byte count; an input of decimal digits
followed only by whitespace (for example "10 ") has a present, trimmed-to-
empty unit and returns an UnexpectedUnit("") error instead of Ok. -/
theorem digits_and_whitespace_amended :
    ∀ (digits ws : List Char),
      digits ≠ [] → (∀ c ∈ digits, c.isDigit = true) → digitsVal digits < 2 ^ 64 →
      (calculate_maximum_file_size (String.mk digits) = .ok (digitsVal digits)
       ∧ (ws ≠ [] → (∀ c ∈ ws, c.isWhitespace = true) →
          calculate_maximum_file_size (String.mk (digits ++ ws))
            = .error (.unexpectedUnit ""))) := by
  intro digits ws hne hd hlt
  refine ⟨calc_all_digits digits hne hd hlt, fun hwne hws => ?_⟩
  cases ws with
  | nil => exact absurd rfl hwne
  | cons w ws =>
      have hw : w.isWhitespace = true := hws w (by simp)
      rw [calc_digits_then digits w ws hne hd (ws_not_digit w hw) hlt]
      rw [trimList_all_ws (w :: ws) hws]
      rfl

/-- Witness for C4: the concrete digits "10" with one trailing space. -/
theorem digits_and_whitespace_amended_witness :
    ([ '1', '0' ] : List Char) ≠ []
    ∧ calculate_maximum_file_size (String.mk [ '1', '0' ]) = .ok (digitsVal [ '1', '0' ])
    ∧ calculate_maximum_file_size (String.mk ([ '1', '0' ] ++ [ ' ' ]))
        = .error (.unexpectedUnit "") := by
  have h := digits_and_whitespace_amended [ '1', '0' ] [ ' ' ]
    (by decide) (by decide) (by decide)
  exact ⟨by decide, h.1, h.2 (by decide) (by decide)⟩

theorem mk_writer_foldl_filter {α : Type} (appenders : String → Option α) :
    ∀ (ids : List String) (acc : Option (List α)),
      ids.foldl (mk_writer_step appenders) acc
        = (ids.filter (fun i => (appenders i).isSome)).foldl (mk_writer_step appenders) acc := by
  intro ids
  induction ids with
  | nil => intro acc; rfl
  | cons i is ih =>
      intro acc
      cases ha : appenders i with
      | none =>
          have hstep : mk_writer_step appenders acc i = acc := by
            simp [mk_writer_step, ha]
          have hfil : (i :: is).filter (fun j => (appenders j).isSome)
              = is.filter (fun j => (appenders j).isSome) := by
            simp [List.filter_cons, ha]
          rw [List.foldl_cons, hstep, hfil, ih]
      | some a =>
          have hfil : (i :: is).filter (fun j => (appenders j).isSome)
              = i :: is.filter (fun j => (appenders j).isSome) := by
            simp [List.filter_cons, ha]
          rw [List.foldl_cons, hfil, List.foldl_cons, ih]

/-- C5: unresolved appender ids are skipped silently — mk_writer computes
the same composite as on the resolved subset of the id list, with no error
path — and when zero ids resolve the logger falls back to the no-op sink:
every write call succeeds (writeComposite is total) and produces no
observable output. -/
theorem mk_writer_skips_unresolved_and_noop_fallback :
    ∀ (α : Type) (ids : List String) (appenders : String → Option α),
      mk_writer ids appenders
          = mk_writer (ids.filter (fun i => (appenders i).isSome)) appenders
      ∧ ((∀ i ∈ ids, appenders i = none) →
          ∀ bytes, writeComposite (logger_writer ids appenders) bytes = []) := by
  intro α ids appenders
  constructor
  · exact mk_writer_foldl_filter appenders ids none
  · intro h bytes
    have hfil : ids.filter (fun i => (appenders i).isSome) = [] := by
      rw [List.filter_eq_nil_iff]
      intro i hi
      rw [h i hi]
      simp
    have hnone : mk_writer ids appenders = none := by
      unfold mk_writer
      rw [mk_writer_foldl_filter appenders ids none, hfil]
      rfl
    simp [logger_writer, hnone, writeComposite]

/-- Witness for C5: a single unresolved id over an empty registry of Nat
sink handles; the write produces nothing. -/
theorem mk_writer_skips_unresolved_and_noop_fallback_witness :
    (∀ i ∈ ([ "a" ] : List String), (fun _ : String => (none : Option Nat)) i = none)
    ∧ writeComposite (logger_writer [ "a" ] (fun _ : String => (none : Option Nat))) "x" = [] :=
  ⟨fun _ _ => rfl,
   (mk_writer_skips_unresolved_and_noop_fallback Nat [ "a" ] (fun _ => none)).2
     (fun _ _ => rfl) "x"⟩

theorem singleFieldVisitor_no_match :
    ∀ (fs : List (String × String)) (acc : String),
      (∀ f ∈ fs, f.1 ≠ MESSAGE_FIELD_NAME) →
      fs.foldl (singleFieldVisitorStep MESSAGE_FIELD_NAME) acc = acc := by
  intro fs
  induction fs with
  | nil => intro acc _; rfl
  | cons f fs ih =>
      intro acc hh
      have hf : (f.1 == MESSAGE_FIELD_NAME) = false :=
        beq_eq_false_iff_ne.mpr (hh f (by simp))
      rw [List.foldl_cons,
        show singleFieldVisitorStep MESSAGE_FIELD_NAME acc f = acc from by
          simp [singleFieldVisitorStep, hf]]
      exact ih acc (fun g hg => hh g (by simp [hg]))

/-- C6: on an event with recorded fields message = "hello" and user = "x",
the MessageOnly formatter writes exactly "hello" followed by one line
terminator and nothing else; and on every event with no field named
"message" it writes nothing and still returns Ok. -/
theorem format_event_messageOnly_spec :
    format_event_messageOnly [ ("message", "hello"), ("user", "x") ] = .ok "hello\n"
    ∧ ∀ fs, (∀ f ∈ fs, f.1 ≠ MESSAGE_FIELD_NAME) →
        format_event_messageOnly fs = .ok "" := by
  constructor
  · rfl
  · intro fs h
    unfold format_event_messageOnly singleFieldVisitorOut
    rw [singleFieldVisitor_no_match fs "" h]

/-- Witness for C6: an event whose only recorded field is user = "x". -/
theorem format_event_messageOnly_spec_witness :
    (∀ f ∈ ([ ("user", "x") ] : List (String × String)), f.1 ≠ MESSAGE_FIELD_NAME)
    ∧ format_event_messageOnly [ ("user", "x") ] = .ok "" :=
  ⟨by decide, format_event_messageOnly_spec.2 [ ("user", "x") ] (by decide)⟩

/-- C10: rendering a custom-template field is total — write_value returns
Ok for every field id, and an id matching none of the five known token ids
writes nothing rather than erroring. -/
theorem write_value_total (c : CustomCtx) (field : String) :
    (write_value c field).isOk = true
    ∧ (field ≠ "T" → field ≠ "t" → field ≠ "m" → field ≠ "f" → field ≠ "l" →
        write_value c field = .ok "") := by
  constructor
  · unfold write_value
    repeat' split
    all_goals rfl
  · intro h1 h2 h3 h4 h5
    have b1 : (field == fields.TIMESTAMP) = false := beq_eq_false_iff_ne.mpr h1
    have b2 : (field == fields.TARGET) = false := beq_eq_false_iff_ne.mpr h2
    have b3 : (field == fields.MESSAGE) = false := beq_eq_false_iff_ne.mpr h3
    have b4 : (field == fields.FIELDS) = false := beq_eq_false_iff_ne.mpr h4
    have b5 : (field == fields.LEVEL) = false := beq_eq_false_iff_ne.mpr h5
    simp [write_value, b1, b2, b3, b4, b5]

/-- Witness for C10: the unrecognized field id "x" on a concrete context
renders as Ok with empty output. -/
theorem write_value_total_witness :
    ("x" : String) ≠ "T"
    ∧ write_value ⟨"app", Level.info, [], "", .ok "ts"⟩ "x" = .ok "" :=
  ⟨by decide,
   (write_value_total ⟨"app", Level.info, [], "", .ok "ts"⟩ "x").2
     (by decide) (by decide) (by decide) (by decide) (by decide)⟩

/-- C7: evaluating the message arm of write_value at the failing input — an
event whose field definitions are named "message" and "user", the message
value having been recorded as "hello" by the event source — shows that the
source writes the literal field name "message" and not the recorded message
content: the loop at loggers.rs lines 212-216 iterates event.fields(),
which yields Field definitions, and writes f.to_string(), the Display form
of a Field, which is its name. -/
theorem write_value_message_token_writes_field_name :
    write_value ⟨"app", Level.info, [ "message", "user" ], "user x", .ok "ts"⟩ "m"
      = .ok "message" := rfl

/-- C8 counterexample: under one concrete clock environment in which both
sources succeed, the custom token text and the Normal timestamp text
differ, because the custom token reads the SystemTime source while Normal
reads the UtcOffsetTime source. -/
theorem custom_and_normal_timestamp_differ :
    customTimestampText (⟨none, 0, fun _ => some "1970-01-01T00:00:00Z",
        .ok "Jan 01 1970 00:00:00.000"⟩ : ClockEnv Nat)
      = "Jan 01 1970 00:00:00.000"
    ∧ normalTimestampText (⟨none, 0, fun _ => some "1970-01-01T00:00:00Z",
        .ok "Jan 01 1970 00:00:00.000"⟩ : ClockEnv Nat)
      = "1970-01-01T00:00:00Z"
    ∧ customTimestampText (⟨none, 0, fun _ => some "1970-01-01T00:00:00Z",
        .ok "Jan 01 1970 00:00:00.000"⟩ : ClockEnv Nat)
      ≠ normalTimestampText (⟨none, 0, fun _ => some "1970-01-01T00:00:00Z",
        .ok "Jan 01 1970 00:00:00.000"⟩ : ClockEnv Nat) := by
  refine ⟨rfl, rfl, ?_⟩
  decide

/-- C8 amended: the custom timestamp token reads only the SystemTime
source — not the UtcOffsetTime source that Normal uses — and degrades to
the literal unknown-time marker when that source fails, while the Normal
timestamp degrades to an empty string when the underlying Rfc3339
conversion fails; the two texts therefore need not coincide. -/
theorem timestamp_sources_amended :
    ∀ (α : Type) (env env2 : ClockEnv α),
      (env.systemTimeFmt = env2.systemTimeFmt →
        customTimestampText env = customTimestampText env2)
      ∧ (env.systemTimeFmt = .error () →
        customTimestampText env = "<unknown time>")
      ∧ (env.rfc3339 (env.now_local.getD env.now_utc) = none →
        normalTimestampText env = "") := by
  intro α env env2
  refine ⟨fun h => ?_, fun h => ?_, fun h => ?_⟩
  · simp [customTimestampText, h]
  · simp [customTimestampText, format_timestamp, h]
  · simp [normalTimestampText, UtcOffsetTime.format_time, h]

/-- Witness for C8: a concrete environment whose SystemTime source fails
and whose Rfc3339 conversion fails. -/
theorem timestamp_sources_amended_witness :
    (⟨none, 0, fun _ => none, .error ()⟩ : ClockEnv Nat).systemTimeFmt = .error ()
    ∧ customTimestampText (⟨none, 0, fun _ => none, .error ()⟩ : ClockEnv Nat)
        = "<unknown time>"
    ∧ normalTimestampText (⟨none, 0, fun _ => none, .error ()⟩ : ClockEnv Nat) = "" :=
  ⟨rfl,
   (timestamp_sources_amended Nat ⟨none, 0, fun _ => none, .error ()⟩
     ⟨none, 0, fun _ => none, .error ()⟩).2.1 rfl,
   (timestamp_sources_amended Nat ⟨none, 0, fun _ => none, .error ()⟩
     ⟨none, 0, fun _ => none, .error ()⟩).2.2 rfl⟩

/-- C9: constructing a Formatter from a Format is total and side-effect
free except for custom-template parsing — Normal and MessageOnly always
construct, a Custom template with a placeholder outside the five known
token ids fails at construction time with a template error, and a Custom
template whose placeholders are all known constructs successfully, so
unknown placeholders are never deferred to render time. -/
theorem eventFormatterFrom_construction (items : List TemplateItem) :
    ((∃ n, TemplateItem.placeholder n ∈ items ∧ knownTokens.contains n = false) →
      (eventFormatterFrom (.custom items)).isOk = false)
    ∧ ((∀ n, TemplateItem.placeholder n ∈ items → knownTokens.contains n = true) →
      eventFormatterFrom (.custom items) = .ok (.custom ⟨items⟩))
    ∧ eventFormatterFrom .normal = .ok .normal
    ∧ eventFormatterFrom .messageOnly = .ok .messageOnly := by
  refine ⟨?_, ?_, rfl, rfl⟩
  · rintro ⟨n, hmem, hcon⟩
    have hall : items.all (fun it =>
        match it with
        | .placeholder n => knownTokens.contains n
        | .lit _ => true) = false := by
      cases hal : items.all (fun it =>
          match it with
          | .placeholder n => knownTokens.contains n
          | .lit _ => true) with
      | false => rfl
      | true =>
          have h2 : knownTokens.contains n = true := List.all_eq_true.mp hal _ hmem
          rw [hcon] at h2
          exact Bool.noConfusion h2
    rw [show eventFormatterFrom (.custom items)
        = (Fmtr.new items).map EventFormatter.custom from rfl]
    unfold Fmtr.new
    rw [hall]
    rfl
  · intro h
    have hall : items.all (fun it =>
        match it with
        | .placeholder n => knownTokens.contains n
        | .lit _ => true) = true :=
      List.all_eq_true.mpr (fun it hit => by
        cases it with
        | lit s => rfl
        | placeholder n => exact h n hit)
    rw [show eventFormatterFrom (.custom items)
        = (Fmtr.new items).map EventFormatter.custom from rfl]
    unfold Fmtr.new
    rw [hall]
    rfl

/-- Witness for C9: the unknown placeholder "x" is rejected at
construction, and the known placeholder "T" is accepted. -/
theorem eventFormatterFrom_construction_witness :
    (∃ n, TemplateItem.placeholder n ∈ [ TemplateItem.placeholder "x" ]
       ∧ knownTokens.contains n = false)
    ∧ (eventFormatterFrom (.custom [ TemplateItem.placeholder "x" ])).isOk = false
    ∧ eventFormatterFrom (.custom [ TemplateItem.placeholder "T" ])
        = .ok (.custom ⟨[ TemplateItem.placeholder "T" ]⟩) :=
  ⟨⟨"x", by decide, by decide⟩,
   (eventFormatterFrom_construction [ TemplateItem.placeholder "x" ]).1
     ⟨"x", by decide, by decide⟩,
   (eventFormatterFrom_construction [ TemplateItem.placeholder "T" ]).2.1
     (fun n hn => by
       rw [List.mem_singleton] at hn
       injection hn with h
       subst h
       decide)⟩

/-- C2: every stage is offered every event independently — the output of
stage i depends only on stage i and the event, so acceptance or writing by
one logger never prevents or alters processing by another — and in the
concrete scenario of an ERROR-level event with target "db.pool" offered to
a default logger at INFO and a "db"-target logger at DEBUG, both stages
accept and each independently renders through its own format and writes
through its own appenders. -/
theorem dispatch_fan_out :
    (∀ (α : Type) (appenders : String → Option α) (stages : List Stage)
        (e : LogEvent) (i : Nat),
      (dispatch appenders stages e)[i]?
        = (stages[i]?).map (fun st => processStage appenders st e))
    ∧ ∀ (α : Type) (appenders : String → Option α)
        (rA rB : Level → String → List (String × String) → String)
        (idsA idsB : List String) (fs : List (String × String)),
      dispatch appenders
          [ ⟨.info, none, rA, idsA⟩, ⟨.debug, some "db", rB, idsB⟩ ]
          ⟨.error, "db.pool", fs⟩
        = [ some (writeComposite (logger_writer idsA appenders)
              (rA .error "db.pool" fs)),
            some (writeComposite (logger_writer idsB appenders)
              (rB .error "db.pool" fs)) ] := by
  constructor
  · intro α appenders stages e i
    simp [dispatch]
  · intro α appenders rA rB idsA idsB fs
    simp [dispatch, processStage,
      show is_enabled LevelFilter.info none Level.error "db.pool" = true from by decide,
      show is_enabled LevelFilter.debug (some "db") Level.error "db.pool" = true from by
        decide]

end Trace4rs
